import Mathlib

/-!
Shallow embedding of the minimal-socks5 server (src/message.rs and
src/server.rs). Bytes are modelled as `Nat` (callers keep them < 256, as
`u8` does in the source); byte streams are lists consumed from the front;
fallible Rust functions return `Except`/`Option`; the `unreachable!()`
panic arms of the `From<Method> for u8` and `From<SocksReply> for u8`
conversions are modelled as `none`.
-/

namespace Socks5

/-- Protocol version constant, message.rs: `pub const VERSION: u8 = 0x05`. -/
def VERSION : Nat := 0x05

/-- `enum Method` from message.rs; the payload of `IanaAssigned` and
`ReservedForPrivateMethods` is the raw code byte. -/
inductive Method where
  | noAuthenticationRequired
  | gssapi
  | usernamePassword
  | ianaAssigned (code : Nat)
  | reservedForPrivateMethods (code : Nat)
  | noAcceptableMethods
  deriving DecidableEq

/-- `From<u8> for Method` (message.rs). The ordered range patterns
`0x00`, `0x01`, `0x02`, `0x03..=0x7f`, `0x80..=0xfe`, `0xff` are compiled
to the same ordered comparisons here; callers only pass byte values. -/
def Method.ofByte (b : Nat) : Method :=
  if b = 0x00 then .noAuthenticationRequired
  else if b = 0x01 then .gssapi
  else if b = 0x02 then .usernamePassword
  else if b ≤ 0x7f then .ianaAssigned b
  else if b ≤ 0xfe then .reservedForPrivateMethods b
  else .noAcceptableMethods

/-- `From<Method> for u8` (message.rs). The arms
`IanaAssigned(_) => unreachable!()` and
`ReservedForPrivateMethods(_) => unreachable!()` become `none`. -/
def Method.toByte : Method → Option Nat
  | .noAuthenticationRequired => some 0x00
  | .gssapi => some 0x01
  | .usernamePassword => some 0x02
  | .ianaAssigned code => if 0x03 ≤ code ∧ code ≤ 0x7f then some code else none
  | .reservedForPrivateMethods code => if 0x80 ≤ code ∧ code ≤ 0xfe then some code else none
  | .noAcceptableMethods => some 0xff

/-- The documented payload range of each `Method` variant (the ranges in
the `From<u8>` mapping); variants without payload are always in range. -/
def Method.InRange : Method → Prop
  | .ianaAssigned code => 0x03 ≤ code ∧ code ≤ 0x7f
  | .reservedForPrivateMethods code => 0x80 ≤ code ∧ code ≤ 0xfe
  | _ => True

/-- `enum ParseError` from message.rs; the payload of the Io variant
(a `tokio::io::Error`) is dropped. -/
inductive ParseError where
  | invalidMessage (msg : String)
  | invalidCommand (byte : Nat)
  | invalidRequest (msg : String)
  | ioError
  deriving DecidableEq

/-- `AsyncReadExt::read_u8` on a stream modelled as a byte list: one byte,
or an end-of-stream I/O error. -/
def readU8 : List Nat → Option (Nat × List Nat)
  | [] => none
  | b :: rest => some (b, rest)

/-- `AsyncReadExt::read_exact` into a buffer of length `n`: exactly `n`
bytes or an I/O error; surplus stream bytes stay unread. -/
def readExact (n : Nat) (s : List Nat) : Option (List Nat × List Nat) :=
  if n ≤ s.length then some (s.take n, s.drop n) else none

/-- `MethodSelectionRequest::parse_from_stream` (message.rs): version byte
checked against `VERSION`, then the NMETHODS byte, then exactly that many
method bytes, each converted with the total `Method` mapping. Returns the
parsed method list together with the unconsumed rest of the stream. -/
def parseMethodSelectionRequest (s : List Nat) :
    Except ParseError (List Method × List Nat) :=
  match readU8 s with
  | none => .error .ioError
  | some (version, s1) =>
    if version ≠ VERSION then .error (.invalidMessage "Incorrect version byte")
    else
      match readU8 s1 with
      | none => .error .ioError
      | some (methodCount, s2) =>
        match readExact methodCount s2 with
        | none => .error .ioError
        | some (methodBytes, s3) => .ok (methodBytes.map Method.ofByte, s3)

/-- `struct MethodSelectionResponse` from message.rs. -/
structure MethodSelectionResponse where
  method : Method
  deriving DecidableEq

/-- `From<MethodSelectionResponse> for [u8; 2]`: `[VERSION, method.into()]`.
`method.into()` can panic on out-of-range payloads, hence `Option`. -/
def MethodSelectionResponse.encode (r : MethodSelectionResponse) : Option (List Nat) :=
  r.method.toByte.map fun b => [VERSION, b]

/-- `enum Command` from message.rs. -/
inductive Command where
  | connect
  | bind
  | udpAssociate
  deriving DecidableEq

/-- `TryFrom<u8> for Command` (message.rs): bytes 0x01/0x02/0x03, any
other byte is `InvalidCommand(byte)`. -/
def Command.ofByte (b : Nat) : Except ParseError Command :=
  if b = 0x01 then .ok .connect
  else if b = 0x02 then .ok .bind
  else if b = 0x03 then .ok .udpAssociate
  else .error (.invalidCommand b)

/-- `enum Address` from message.rs; `Ipv4Addr`/`Ipv6Addr` are modelled by
their octet lists (4 and 16 octets as the parser produces them). -/
inductive Address where
  | ipv4 (octets : List Nat)
  | domainName (name : List Nat)
  | ipv6 (octets : List Nat)
  deriving DecidableEq

/-- `Address::r#type` (message.rs): the ATYP byte of the variant. -/
def Address.type : Address → Nat
  | .ipv4 _ => 0x01
  | .domainName _ => 0x03
  | .ipv6 _ => 0x04

/-- The address bytes appended by `From<SocksResponse> for Vec<u8>`
(message.rs): the `DomainName` arm extends with the raw name bytes only. -/
def Address.payload : Address → List Nat
  | .ipv4 octets => octets
  | .domainName name => name
  | .ipv6 octets => octets

/-- `struct SocksRequest` from message.rs; the port is a `u16`. -/
structure SocksRequest where
  command : Command
  address : Address
  port : Nat
  deriving DecidableEq

/-- Splits off the final two bytes of a list, mirroring the binding of
`port_high, port_low` in the Rust slice pattern
`[VERSION, command, RESERVED, remainder @ .., port_high, port_low]`. -/
def splitLastTwo : List Nat → Option (List Nat × Nat × Nat)
  | [] => none
  | [_] => none
  | a :: b :: rest =>
    match splitLastTwo (b :: rest) with
    | some (middle, x, y) => some (a :: middle, x, y)
    | none => some ([], a, b)

/-- The ATYP dispatch inside `TryFrom<&[u8]> for SocksRequest`
(message.rs), applied to the bytes between RSV and DST.PORT. The ordered
Rust slice patterns `[0x01, address @ ..]`, `[0x03, name_length, name @ ..]`,
`[0x04, address @ ..]`, `_` are compiled to the same ordered tests. -/
def parseAddress : List Nat → Except ParseError Address
  | tag :: rest =>
    if tag = 0x01 then
      if rest.length = 4 then .ok (.ipv4 rest)
      else .error (.invalidRequest "Invalid IPv4 address length")
    else if tag = 0x03 then
      match rest with
      | nameLength :: name =>
        if name.length = nameLength then .ok (.domainName name)
        else .error (.invalidRequest "Invalid domain name length")
      | [] => .error (.invalidRequest "Invalid address")
    else if tag = 0x04 then
      if rest.length = 16 then .ok (.ipv6 rest)
      else .error (.invalidRequest "Invalid IPv6 address length")
    else .error (.invalidRequest "Invalid address")
  | [] => .error (.invalidRequest "Invalid address")

/-- `TryFrom<&[u8]> for SocksRequest` (message.rs): the outer slice
pattern demands the version byte, a command byte, the reserved 0x00 byte,
and at least two further bytes whose last two are the big-endian port;
the command byte is converted first, then the middle bytes are parsed as
the address. Any shape failure is `InvalidRequest("")`. -/
def SocksRequest.ofBytes (value : List Nat) : Except ParseError SocksRequest :=
  match value with
  | versionByte :: commandByte :: reservedByte :: rest =>
    if versionByte = VERSION ∧ reservedByte = 0x00 then
      match splitLastTwo rest with
      | some (remainder, portHigh, portLow) =>
        match Command.ofByte commandByte with
        | .error e => .error e
        | .ok command =>
          match parseAddress remainder with
          | .error e => .error e
          | .ok address => .ok ⟨command, address, portHigh * 256 + portLow⟩
      | none => .error (.invalidRequest "")
    else .error (.invalidRequest "")
  | _ => .error (.invalidRequest "")

/-- `enum SocksReply` from message.rs. -/
inductive SocksReply where
  | succeeded
  | generalSocksServerFailure
  | connectionNotAllowedByRuleset
  | networkUnreachable
  | hostUnreachable
  | connectionRefused
  | ttlExpired
  | commandNotSupported
  | addressTypeNotSupported
  | unassigned (code : Nat)
  deriving DecidableEq

/-- `From<SocksReply> for u8` (message.rs); the arm
`Unassigned(_) => unreachable!()` becomes `none`. -/
def SocksReply.toByte : SocksReply → Option Nat
  | .succeeded => some 0x00
  | .generalSocksServerFailure => some 0x01
  | .connectionNotAllowedByRuleset => some 0x02
  | .networkUnreachable => some 0x03
  | .hostUnreachable => some 0x04
  | .connectionRefused => some 0x05
  | .ttlExpired => some 0x06
  | .commandNotSupported => some 0x07
  | .addressTypeNotSupported => some 0x08
  | .unassigned code => if 0x09 ≤ code ∧ code ≤ 0xff then some code else none

/-- The documented payload range of `SocksReply::Unassigned` (the
`0x09..=0xff` pattern); payload-free variants are always in range. -/
def SocksReply.InRange : SocksReply → Prop
  | .unassigned code => 0x09 ≤ code ∧ code ≤ 0xff
  | _ => True

/-- `struct SocksResponse` from message.rs. -/
structure SocksResponse where
  reply : SocksReply
  address : Address
  port : Nat
  deriving DecidableEq

/-- `u16::to_be_bytes` of the port value. -/
def beBytes16 (p : Nat) : List Nat := [p / 256 % 256, p % 256]

/-- `From<SocksResponse> for Vec<u8>` (message.rs):
`[VERSION, reply.into(), RESERVED, address.type()]`, then the address
payload bytes, then the big-endian port. `reply.into()` can panic, hence
`Option`. -/
def SocksResponse.encode (r : SocksResponse) : Option (List Nat) :=
  r.reply.toByte.map fun replyByte =>
    [VERSION, replyByte, 0x00, r.address.type] ++ r.address.payload ++ beBytes16 r.port

/-- `select_method` (server.rs): `Ok` carries the selected response, `Err`
the no-acceptable-methods response. -/
def selectMethod (methods : List Method) :
    Except MethodSelectionResponse MethodSelectionResponse :=
  if Method.noAuthenticationRequired ∈ methods then
    .ok ⟨Method.noAuthenticationRequired⟩
  else
    .error ⟨Method.noAcceptableMethods⟩

/-- The phase reached by the negotiation part of `handshake_and_connect`
(server.rs), up to the point where the SOCKS request would be read. -/
inductive HandshakePhase where
  | abandoned (e : ParseError)
  | rejectedNoMethod
  | awaitingRequest (methods : List Method) (rest : List Nat)
  deriving DecidableEq

/-- The negotiation part of `handshake_and_connect` (server.rs): parse the
method-selection request (a failure abandons the connection with nothing
written), select a method, write the two-byte response; on `Err` the
function bails out before any further read. Returns the phase reached and
the bytes written to the client. `write_to_stream` is modelled from the
spec as writing the `From<MethodSelectionResponse> for [u8; 2]` encoding;
the encoding is total on the two responses `select_method` produces. -/
def handshakeNegotiate (s : List Nat) : HandshakePhase × List Nat :=
  match parseMethodSelectionRequest s with
  | .error e => (.abandoned e, [])
  | .ok (methods, rest) =>
    match selectMethod methods with
    | .ok response => (.awaitingRequest methods rest, response.encode.getD [])
    | .error response => (.rejectedNoMethod, response.encode.getD [])

/-- `std::io::ErrorKind` values as `perform_socks_request` distinguishes
them; `other` stands for every kind not matched by name. -/
inductive IOErrorKind where
  | permissionDenied
  | connectionRefused
  | notFound
  | timedOut
  | other
  deriving DecidableEq

/-- `std::net::IpAddr`, modelled by octet lists. -/
inductive IpAddr where
  | v4 (octets : List Nat)
  | v6 (octets : List Nat)
  deriving DecidableEq

/-- `From<IpAddr> for Address` (message.rs). -/
def Address.ofIpAddr : IpAddr → Address
  | .v4 octets => .ipv4 octets
  | .v6 octets => .ipv6 octets

/-- `std::net::SocketAddr`. -/
structure SocketAddr where
  ip : IpAddr
  port : Nat
  deriving DecidableEq

/-- The network operations `perform_socks_request` may invoke, as oracles:
`lookupHost` is the outcome of `lookup_host` (server.rs) with its errors
already mapped to a `SocksReply` as that function does; `connectResult`
the outcome of `TcpStream::connect`; `localAddrResult` the outcome of
`TcpStream::local_addr`. -/
structure NetOracle where
  lookupHost : Except SocksReply (List SocketAddr)
  connectResult : Except IOErrorKind Unit
  localAddrResult : Except IOErrorKind SocketAddr

/-- Which network operations a run of `perform_socks_request` invoked. -/
structure NetEffects where
  resolvedAddress : Bool
  attemptedConnect : Bool
  deriving DecidableEq

/-- The `ErrorKind` match on the `TcpStream::connect` failure in
`perform_socks_request` (server.rs). -/
def classifyConnectError : IOErrorKind → SocksReply
  | .permissionDenied => .connectionNotAllowedByRuleset
  | .connectionRefused => .connectionRefused
  | _ => .generalSocksServerFailure

/-- `perform_socks_request` (server.rs): reject non-CONNECT commands with
`CommandNotSupported` echoing the requested address and port, then
resolve, connect (classifying a connect failure), read the local bind
address, and build the `Succeeded` response from it. The `TcpStream` of
the success value is not modelled; the second component records which
network operations were invoked. -/
def performSocksRequest (request : SocksRequest) (net : NetOracle) :
    Except SocksResponse SocksResponse × NetEffects :=
  match request with
  | ⟨command, address, port⟩ =>
    if command ≠ Command.connect then
      (.error ⟨SocksReply.commandNotSupported, address, port⟩, ⟨false, false⟩)
    else
      match net.lookupHost with
      | .error reply => (.error ⟨reply, address, port⟩, ⟨true, false⟩)
      | .ok _socketAddresses =>
        match net.connectResult with
        | .error errorKind =>
          (.error ⟨classifyConnectError errorKind, address, port⟩, ⟨true, true⟩)
        | .ok () =>
          match net.localAddrResult with
          | .error _ =>
            (.error ⟨SocksReply.generalSocksServerFailure, address, port⟩, ⟨true, true⟩)
          | .ok bindAddress =>
            (.ok ⟨SocksReply.succeeded, Address.ofIpAddr bindAddress.ip, bindAddress.port⟩,
             ⟨true, true⟩)

instance {e a : Type} [DecidableEq e] [DecidableEq a] : DecidableEq (Except e a) := fun x y =>
  match x, y with
  | .ok u, .ok v => decidable_of_iff (u = v) (by simp)
  | .error u, .error v => decidable_of_iff (u = v) (by simp)
  | .ok _, .error _ => .isFalse (by simp)
  | .error _, .ok _ => .isFalse (by simp)

/-- On a list of the form `middle ++ [x, y]`, `splitLastTwo` returns the
middle and the two final bytes. -/
theorem splitLastTwo_append (middle : List Nat) (x y : Nat) :
    splitLastTwo (middle ++ [x, y]) = some (middle, x, y) := by
  induction middle with
  | nil => rfl
  | cons a rest ih =>
    cases rest with
    | nil => rfl
    | cons b rest2 =>
      have ih2 : splitLastTwo (b :: (rest2 ++ [x, y])) = some (b :: rest2, x, y) := by
        simpa using ih
      simp [splitLastTwo, ih2]

/-- A successful `splitLastTwo` decomposes its input as middle plus the
two final bytes. -/
theorem splitLastTwo_sound :
    ∀ (l middle : List Nat) (x y : Nat),
      splitLastTwo l = some (middle, x, y) → l = middle ++ [x, y]
  | [], _, _, _, h => by simp [splitLastTwo] at h
  | [_], _, _, _, h => by simp [splitLastTwo] at h
  | a :: b :: rest, middle, x, y, h => by
    simp only [splitLastTwo] at h
    cases hrec : splitLastTwo (b :: rest) with
    | some t =>
      obtain ⟨middle2, x2, y2⟩ := t
      rw [hrec] at h
      simp only [Option.some.injEq, Prod.mk.injEq] at h
      obtain ⟨hm, hx, hy⟩ := h
      subst hm; subst hx; subst hy
      have htail := splitLastTwo_sound (b :: rest) middle2 x2 y2 hrec
      simp [htail]
    | none =>
      rw [hrec] at h
      simp only [Option.some.injEq, Prod.mk.injEq] at h
      obtain ⟨hm, hx, hy⟩ := h
      subst hm; subst hx; subst hy
      cases rest with
      | nil => simp
      | cons c t =>
        simp only [splitLastTwo] at hrec
        cases h2 : splitLastTwo (c :: t) with
        | some u => rw [h2] at hrec; obtain ⟨_, _, _⟩ := u; simp at hrec
        | none => rw [h2] at hrec; simp at hrec

/-- A successful `parseAddress` run saw one of the three known ATYP tags,
with the exact address-byte count for that tag. -/
theorem parseAddress_ok (remainder : List Nat) (address : Address)
    (h : parseAddress remainder = .ok address) :
    (∃ octets, remainder = 0x01 :: octets ∧ octets.length = 4 ∧ address = .ipv4 octets) ∨
    (∃ nameLength name, remainder = 0x03 :: nameLength :: name ∧ name.length = nameLength ∧
      address = .domainName name) ∨
    (∃ octets, remainder = 0x04 :: octets ∧ octets.length = 16 ∧ address = .ipv6 octets) := by
  match remainder with
  | [] => exact absurd h (by simp [parseAddress])
  | tag :: rest =>
    simp only [parseAddress] at h
    by_cases h1 : tag = 0x01
    · rw [if_pos h1] at h
      refine Or.inl ?_
      by_cases hlen : rest.length = 4
      · rw [if_pos hlen] at h
        cases h
        exact ⟨rest, by rw [h1], hlen, rfl⟩
      · rw [if_neg hlen] at h; cases h
    · rw [if_neg h1] at h
      by_cases h3 : tag = 0x03
      · rw [if_pos h3] at h
        refine Or.inr (Or.inl ?_)
        cases rest with
        | nil => cases h
        | cons nameLength name =>
          have h2 : (if name.length = nameLength then Except.ok (Address.domainName name)
              else Except.error (ParseError.invalidRequest "Invalid domain name length"))
              = Except.ok address := h
          by_cases hlen : name.length = nameLength
          · rw [if_pos hlen] at h2
            cases h2
            exact ⟨nameLength, name, by rw [h3], hlen, rfl⟩
          · rw [if_neg hlen] at h2; cases h2
      · rw [if_neg h3] at h
        by_cases h4 : tag = 0x04
        · rw [if_pos h4] at h
          refine Or.inr (Or.inr ?_)
          by_cases hlen : rest.length = 16
          · rw [if_pos hlen] at h
            cases h
            exact ⟨rest, by rw [h4], hlen, rfl⟩
          · rw [if_neg hlen] at h; cases h
        · rw [if_neg h4] at h; cases h

/-- A successful `SocksRequest.ofBytes` run decomposes the input as a
version byte, a command byte the `Command` conversion accepts, the
reserved byte, the address bytes, and the two big-endian port bytes. -/
theorem ofBytes_ok (value : List Nat) (request : SocksRequest)
    (h : SocksRequest.ofBytes value = .ok request) :
    ∃ commandByte remainder portHigh portLow command address,
      value = VERSION :: commandByte :: 0x00 :: (remainder ++ [portHigh, portLow]) ∧
      Command.ofByte commandByte = .ok command ∧
      parseAddress remainder = .ok address ∧
      request = ⟨command, address, portHigh * 256 + portLow⟩ := by
  match value with
  | [] => cases h
  | [_] => cases h
  | [_, _] => cases h
  | versionByte :: commandByte :: reservedByte :: rest =>
    simp only [SocksRequest.ofBytes] at h
    by_cases hv : versionByte = VERSION ∧ reservedByte = 0x00
    · rw [if_pos hv] at h
      cases hsplit : splitLastTwo rest with
      | none => rw [hsplit] at h; cases h
      | some t =>
        obtain ⟨remainder, portHigh, portLow⟩ := t
        rw [hsplit] at h
        have h2 : (match Command.ofByte commandByte with
            | Except.error e => Except.error e
            | Except.ok command =>
              match parseAddress remainder with
              | Except.error e => Except.error e
              | Except.ok address =>
                Except.ok (⟨command, address, portHigh * 256 + portLow⟩ : SocksRequest))
            = Except.ok request := h
        cases hcmd : Command.ofByte commandByte with
        | error e => rw [hcmd] at h2; cases h2
        | ok command =>
          rw [hcmd] at h2
          have h3 : (match parseAddress remainder with
              | Except.error e => Except.error e
              | Except.ok address =>
                Except.ok (⟨command, address, portHigh * 256 + portLow⟩ : SocksRequest))
              = Except.ok request := h2
          cases haddr : parseAddress remainder with
          | error e => rw [haddr] at h3; cases h3
          | ok address =>
            rw [haddr] at h3
            cases h3
            refine ⟨commandByte, remainder, portHigh, portLow, command, address, ?_, hcmd, haddr, rfl⟩
            rw [hv.1, hv.2, splitLastTwo_sound rest remainder portHigh portLow hsplit]
    · rw [if_neg hv] at h; cases h

/-- Evaluating `SocksRequest.ofBytes` on an input decomposed into header,
address bytes and port bytes. -/
theorem ofBytes_eval (commandByte : Nat) (remainder : List Nat) (portHigh portLow : Nat) :
    SocksRequest.ofBytes (0x05 :: commandByte :: 0x00 :: (remainder ++ [portHigh, portLow]))
      = match Command.ofByte commandByte with
        | .error e => .error e
        | .ok command =>
          match parseAddress remainder with
          | .error e => .error e
          | .ok address => .ok ⟨command, address, portHigh * 256 + portLow⟩ := by
  simp only [SocksRequest.ofBytes, VERSION, and_self, if_true, ite_true, if_pos]
  rw [splitLastTwo_append]

/-- Claim C1 (code bug exhibited): encoding the SocksResponse with reply
CommandNotSupported, address DomainName [0x61], port 80 produces
`05 07 00 03 61 00 50` — the name bytes follow the ATYP byte directly,
with no 1-byte length prefix — and not the claimed
`05 07 00 03 01 61 00 50`. -/
theorem c1_domain_name_encoding_missing_length_byte :
    SocksResponse.encode ⟨.commandNotSupported, .domainName [0x61], 80⟩
      = some [0x05, 0x07, 0x00, 0x03, 0x61, 0x00, 0x50] ∧
    SocksResponse.encode ⟨.commandNotSupported, .domainName [0x61], 80⟩
      ≠ some [0x05, 0x07, 0x00, 0x03, 0x01, 0x61, 0x00, 0x50] := by
  exact ⟨by decide, by decide⟩

/-- Claim C2: for every byte b, converting b to a Method and back yields b
again; in particular the byte-to-variant mapping is total and the
variant-to-byte conversion never hits its panic arm on such values. -/
theorem c2_method_byte_roundtrip (b : Nat) (hb : b < 256) :
    Method.toByte (Method.ofByte b) = some b := by
  unfold Method.ofByte
  split_ifs with h0 h1 h2 h7f hfe
  · subst h0; rfl
  · subst h1; rfl
  · subst h2; rfl
  · show (if 0x03 ≤ b ∧ b ≤ 0x7f then some b else none) = some b
    rw [if_pos ⟨by omega, h7f⟩]
  · show (if 0x80 ≤ b ∧ b ≤ 0xfe then some b else none) = some b
    rw [if_pos ⟨by omega, hfe⟩]
  · have hff : b = 0xff := by omega
    subst hff; rfl

/-- Witness for C2 at byte 0x42. -/
theorem c2_method_byte_roundtrip_witness :
    Method.toByte (Method.ofByte 0x42) = some 0x42 :=
  c2_method_byte_roundtrip 0x42 (by decide)

/-- Claim C3 fails as stated: NMETHODS = 0 decodes successfully with zero
methods (a count outside 1..255), and with NMETHODS = 1 a stream holding
two method bytes still decodes successfully, leaving the surplus byte
unread instead of failing. -/
theorem c3_counterexample :
    parseMethodSelectionRequest [0x05, 0x00] = .ok ([], []) ∧
    parseMethodSelectionRequest [0x05, 0x01, 0x00, 0x07]
      = .ok ([Method.noAuthenticationRequired], [0x07]) := by
  exact ⟨by decide, by decide⟩

/-- Claim C3 as amended: a successfully decoded request contains exactly
NMETHODS methods (any byte count 0..255, zero included), consuming exactly
NMETHODS method bytes and leaving the rest of the stream unread; decoding
fails with an I/O error exactly when fewer than NMETHODS method bytes
remain in the stream. -/
theorem c3_method_count (n : Nat) (body : List Nat) :
    (n ≤ body.length →
      parseMethodSelectionRequest (0x05 :: n :: body)
        = .ok ((body.take n).map Method.ofByte, body.drop n) ∧
      ((body.take n).map Method.ofByte).length = n) ∧
    (body.length < n →
      parseMethodSelectionRequest (0x05 :: n :: body) = .error .ioError) := by
  constructor
  · intro hle
    have hexact : readExact n body = some (body.take n, body.drop n) := by
      simp [readExact, hle]
    constructor
    · simp [parseMethodSelectionRequest, readU8, VERSION, hexact]
    · simp only [List.length_map, List.length_take]
      omega
  · intro hlt
    have hexact : readExact n body = none := by
      simp only [readExact, ite_eq_right_iff]
      omega
    simp [parseMethodSelectionRequest, readU8, VERSION, hexact]

/-- Witness for C3 as amended: NMETHODS = 1 with exactly one method byte
succeeds with one method; NMETHODS = 2 with one method byte fails. -/
theorem c3_method_count_witness :
    parseMethodSelectionRequest [0x05, 0x01, 0x00]
      = .ok ([Method.noAuthenticationRequired], []) ∧
    parseMethodSelectionRequest [0x05, 0x02, 0x00] = .error .ioError := by
  refine ⟨?_, ?_⟩
  · simpa using ((c3_method_count 1 [0]).1 (by decide)).1
  · simpa using (c3_method_count 2 [0]).2 (by decide)

/-- Claim C4: a SOCKS request slice with ATYP 0x03 whose declared domain
length differs from the number of name bytes present fails with the
length-mismatch error (never truncating or padding); with a matching
length it succeeds, the decoded name being exactly the name bytes, whose
count equals the declared length. -/
theorem c4_domain_length_checked (commandByte nameLength portHigh portLow : Nat)
    (name : List Nat)
    (hcmd : commandByte = 0x01 ∨ commandByte = 0x02 ∨ commandByte = 0x03) :
    (name.length ≠ nameLength →
      SocksRequest.ofBytes
          ([0x05, commandByte, 0x00, 0x03, nameLength] ++ name ++ [portHigh, portLow])
        = .error (.invalidRequest "Invalid domain name length")) ∧
    (name.length = nameLength →
      ∃ command,
        SocksRequest.ofBytes
            ([0x05, commandByte, 0x00, 0x03, nameLength] ++ name ++ [portHigh, portLow])
          = .ok ⟨command, .domainName name, portHigh * 256 + portLow⟩ ∧
        name.length = nameLength) := by
  have hshape :
      ([0x05, commandByte, 0x00, 0x03, nameLength] ++ name ++ [portHigh, portLow])
        = 0x05 :: commandByte :: 0x00 :: ((0x03 :: nameLength :: name) ++ [portHigh, portLow]) := by
    simp
  obtain ⟨command, hcmdeq⟩ : ∃ command, Command.ofByte commandByte = .ok command := by
    rcases hcmd with h | h | h <;> subst h
    · exact ⟨.connect, rfl⟩
    · exact ⟨.bind, rfl⟩
    · exact ⟨.udpAssociate, rfl⟩
  constructor
  · intro hne
    have haddr : parseAddress (0x03 :: nameLength :: name)
        = .error (.invalidRequest "Invalid domain name length") := by
      simp [parseAddress, hne]
    rw [hshape, ofBytes_eval, hcmdeq, haddr]
  · intro heq
    have haddr : parseAddress (0x03 :: nameLength :: name) = .ok (.domainName name) := by
      simp [parseAddress, heq]
    refine ⟨command, ?_, heq⟩
    rw [hshape, ofBytes_eval, hcmdeq, haddr]

/-- Witness for C4: declared length 5 with 4 name bytes fails; declared
length 4 with 4 name bytes succeeds. -/
theorem c4_domain_length_checked_witness :
    SocksRequest.ofBytes [0x05, 0x01, 0x00, 0x03, 0x05, 97, 98, 99, 100, 0x00, 0x50]
      = .error (.invalidRequest "Invalid domain name length") ∧
    ∃ command, SocksRequest.ofBytes [0x05, 0x01, 0x00, 0x03, 0x04, 97, 98, 99, 100, 0x00, 0x50]
      = .ok ⟨command, .domainName [97, 98, 99, 100], 0x50⟩ := by
  refine ⟨?_, ?_⟩
  · simpa using (c4_domain_length_checked 0x01 0x05 0x00 0x50 [97, 98, 99, 100]
      (Or.inl rfl)).1 (by decide)
  · obtain ⟨command, heq, -⟩ := (c4_domain_length_checked 0x01 0x04 0x00 0x50 [97, 98, 99, 100]
      (Or.inl rfl)).2 rfl
    exact ⟨command, by simpa using heq⟩

/-- Claim C5: method selection picks no-authentication-required whenever it
is offered and no-acceptable-methods otherwise; in the latter case the
handshake still writes the `05 ff` response and terminates in the rejected
phase, without reading a SOCKS request from the remaining stream. -/
theorem c5_method_selection (methods : List Method) (s rest : List Nat) :
    (Method.noAuthenticationRequired ∈ methods →
      selectMethod methods = .ok ⟨Method.noAuthenticationRequired⟩) ∧
    (Method.noAuthenticationRequired ∉ methods →
      selectMethod methods = .error ⟨Method.noAcceptableMethods⟩) ∧
    (parseMethodSelectionRequest s = .ok (methods, rest) →
      Method.noAuthenticationRequired ∉ methods →
      handshakeNegotiate s = (.rejectedNoMethod, [VERSION, 0xff])) := by
  refine ⟨fun hmem => ?_, fun hnot => ?_, fun hparse hnot => ?_⟩
  · simp [selectMethod, hmem]
  · simp [selectMethod, hnot]
  · have hsel : selectMethod methods = .error ⟨Method.noAcceptableMethods⟩ := by
      simp [selectMethod, hnot]
    simp [handshakeNegotiate, hparse, hsel, MethodSelectionResponse.encode, Method.toByte]

/-- Witness for C5: offered {UsernamePassword, NoAuthenticationRequired}
selects no-auth; offered {UsernamePassword} alone is rejected, and on the
wire `05 01 02` the handshake writes `05 ff` and terminates rejected. -/
theorem c5_method_selection_witness :
    selectMethod [Method.usernamePassword, Method.noAuthenticationRequired]
      = .ok ⟨Method.noAuthenticationRequired⟩ ∧
    selectMethod [Method.usernamePassword] = .error ⟨Method.noAcceptableMethods⟩ ∧
    handshakeNegotiate [0x05, 0x01, 0x02] = (.rejectedNoMethod, [0x05, 0xff]) := by
  refine ⟨?_, ?_, ?_⟩
  · exact (c5_method_selection [Method.usernamePassword, Method.noAuthenticationRequired]
      [] []).1 (by decide)
  · exact (c5_method_selection [Method.usernamePassword] [] []).2.1 (by decide)
  · simpa using (c5_method_selection [Method.usernamePassword] [0x05, 0x01, 0x02] []).2.2
      (by decide) (by decide)

/-- Claim C6: a request whose command is not Connect (Bind or
UdpAssociate) is answered with CommandNotSupported carrying the requested
address and port unchanged, and neither the resolver nor the connector is
invoked. -/
theorem c6_command_not_supported (request : SocksRequest) (net : NetOracle)
    (h : request.command ≠ Command.connect) :
    performSocksRequest request net
      = (.error ⟨SocksReply.commandNotSupported, request.address, request.port⟩,
         ⟨false, false⟩) := by
  obtain ⟨command, address, port⟩ := request
  simp only [performSocksRequest]
  rw [if_pos h]

/-- Witness for C6 at a Bind request. -/
theorem c6_command_not_supported_witness :
    performSocksRequest ⟨Command.bind, Address.ipv4 [127, 0, 0, 1], 80⟩
        ⟨.ok [], .ok (), .ok ⟨IpAddr.v4 [0, 0, 0, 0], 0⟩⟩
      = (.error ⟨SocksReply.commandNotSupported, Address.ipv4 [127, 0, 0, 1], 80⟩,
         ⟨false, false⟩) :=
  c6_command_not_supported ⟨Command.bind, Address.ipv4 [127, 0, 0, 1], 80⟩
    ⟨.ok [], .ok (), .ok ⟨IpAddr.v4 [0, 0, 0, 0], 0⟩⟩ (by decide)

/-- Claim C7: when the upstream connect attempt fails, the reply is
classified by the error kind — permission-denied to
ConnectionNotAllowedByRuleset, connection-refused to ConnectionRefused,
every other kind to GeneralSocksServerFailure — and the failure response
carries the originally requested address and port, independent of the
resolved endpoints. -/
theorem c7_connect_failure_classified (request : SocksRequest) (net : NetOracle)
    (socketAddresses : List SocketAddr) (errorKind : IOErrorKind)
    (hc : request.command = Command.connect)
    (hl : net.lookupHost = .ok socketAddresses)
    (he : net.connectResult = .error errorKind) :
    (performSocksRequest request net).1
      = .error ⟨classifyConnectError errorKind, request.address, request.port⟩ ∧
    (errorKind = .permissionDenied →
      classifyConnectError errorKind = .connectionNotAllowedByRuleset) ∧
    (errorKind = .connectionRefused →
      classifyConnectError errorKind = .connectionRefused) ∧
    (errorKind ≠ .permissionDenied → errorKind ≠ .connectionRefused →
      classifyConnectError errorKind = .generalSocksServerFailure) := by
  obtain ⟨command, address, port⟩ := request
  refine ⟨?_, fun hp => ?_, fun hr => ?_, fun hp hr => ?_⟩
  · subst hc
    simp only [performSocksRequest]
    rw [if_neg (by simp), hl, he]
  · subst hp; rfl
  · subst hr; rfl
  · cases errorKind with
    | permissionDenied => exact absurd rfl hp
    | connectionRefused => exact absurd rfl hr
    | notFound => rfl
    | timedOut => rfl
    | other => rfl

/-- Witness for C7: a refused connection yields ConnectionRefused with the
originally requested 127.0.0.1:8080 echoed back. -/
theorem c7_connect_failure_classified_witness :
    (performSocksRequest ⟨Command.connect, Address.ipv4 [127, 0, 0, 1], 8080⟩
        ⟨.ok [⟨IpAddr.v4 [10, 0, 0, 1], 9999⟩], .error IOErrorKind.connectionRefused,
         .ok ⟨IpAddr.v4 [0, 0, 0, 0], 0⟩⟩).1
      = .error ⟨SocksReply.connectionRefused, Address.ipv4 [127, 0, 0, 1], 8080⟩ := by
  have h := c7_connect_failure_classified
    ⟨Command.connect, Address.ipv4 [127, 0, 0, 1], 8080⟩
    ⟨.ok [⟨IpAddr.v4 [10, 0, 0, 1], 9999⟩], .error IOErrorKind.connectionRefused,
     .ok ⟨IpAddr.v4 [0, 0, 0, 0], 0⟩⟩
    [⟨IpAddr.v4 [10, 0, 0, 1], 9999⟩] IOErrorKind.connectionRefused rfl rfl rfl
  simpa [classifyConnectError] using h.1

/-- Claim C8 fails as stated: ATYP 0x02 makes decoding fail, but the
error is `InvalidRequest "Invalid address"`, and that error value is not
the byte-carrying form (the ParseError type of the code has no
InvalidAddressType variant; only InvalidCommand carries a byte). -/
theorem c8_counterexample :
    SocksRequest.ofBytes [0x05, 0x01, 0x00, 0x02, 0x00, 0x50]
      = .error (.invalidRequest "Invalid address") ∧
    ParseError.invalidRequest "Invalid address" ≠ ParseError.invalidCommand 0x02 := by
  exact ⟨by decide, by decide⟩

/-- Claim C8 as amended: decoding a SOCKS request slice whose ATYP tag is
not 0x01, 0x03 or 0x04 fails with `InvalidRequest "Invalid address"`,
an error that does not carry the tag byte. -/
theorem c8_unknown_atyp_invalid_address (commandByte tag portHigh portLow : Nat)
    (mid : List Nat)
    (hcmd : commandByte = 0x01 ∨ commandByte = 0x02 ∨ commandByte = 0x03)
    (h1 : tag ≠ 0x01) (h3 : tag ≠ 0x03) (h4 : tag ≠ 0x04) :
    SocksRequest.ofBytes ([0x05, commandByte, 0x00, tag] ++ mid ++ [portHigh, portLow])
      = .error (.invalidRequest "Invalid address") := by
  have hshape : ([0x05, commandByte, 0x00, tag] ++ mid ++ [portHigh, portLow])
      = 0x05 :: commandByte :: 0x00 :: ((tag :: mid) ++ [portHigh, portLow]) := by
    simp
  obtain ⟨command, hcmdeq⟩ : ∃ command, Command.ofByte commandByte = .ok command := by
    rcases hcmd with h | h | h <;> subst h
    · exact ⟨.connect, rfl⟩
    · exact ⟨.bind, rfl⟩
    · exact ⟨.udpAssociate, rfl⟩
  have haddr : parseAddress (tag :: mid) = .error (.invalidRequest "Invalid address") := by
    simp only [parseAddress]
    rw [if_neg h1, if_neg h3, if_neg h4]
  rw [hshape, ofBytes_eval, hcmdeq, haddr]

/-- Witness for C8 as amended, at ATYP 0x02 with a 4-byte address body. -/
theorem c8_unknown_atyp_witness :
    SocksRequest.ofBytes [0x05, 0x01, 0x00, 0x02, 0x7f, 0x00, 0x00, 0x01, 0x00, 0x50]
      = .error (.invalidRequest "Invalid address") := by
  simpa using c8_unknown_atyp_invalid_address 0x01 0x02 0x00 0x50 [0x7f, 0x00, 0x00, 0x01]
    (Or.inl rfl) (by decide) (by decide) (by decide)

/-- Claim C9: a successful slice decode forces the exact message length —
10 bytes for ATYP 0x01, 7 plus the declared name length for ATYP 0x03
(the declared length being byte 4), 22 bytes for ATYP 0x04 — and the last
two bytes of the slice are the big-endian port of the decoded request. -/
theorem c9_exact_message_length (v : List Nat) (request : SocksRequest)
    (h : SocksRequest.ofBytes v = .ok request) :
    5 ≤ v.length ∧
    (v[3]? = some 0x01 ∨ v[3]? = some 0x03 ∨ v[3]? = some 0x04) ∧
    (v[3]? = some 0x01 → v.length = 10) ∧
    (v[3]? = some 0x03 → ∃ n, v[4]? = some n ∧ v.length = 7 + n) ∧
    (v[3]? = some 0x04 → v.length = 22) ∧
    (∃ middle portHigh portLow, v = middle ++ [portHigh, portLow] ∧
      request.port = portHigh * 256 + portLow) := by
  obtain ⟨cb, remainder, ph, pl, command, address, hval, hcmdeq, haddr, hreq⟩ :=
    ofBytes_ok v request h
  subst hval
  subst hreq
  rcases parseAddress_ok remainder address haddr with
    ⟨octets, hrem, hlen, -⟩ | ⟨n, name, hrem, hlen, -⟩ | ⟨octets, hrem, hlen, -⟩
  · subst hrem
    have hv3 : (VERSION :: cb :: 0x00 :: ((0x01 :: octets) ++ [ph, pl]))[3]? = some 0x01 := by
      simp
    have hlenv : (VERSION :: cb :: 0x00 :: ((0x01 :: octets) ++ [ph, pl])).length
        = octets.length + 6 := by
      simp
    refine ⟨by omega, Or.inl hv3, fun _ => by omega, fun hx => ?_, fun hx => ?_, ?_⟩
    · rw [hv3] at hx; exact absurd hx (by decide)
    · rw [hv3] at hx; exact absurd hx (by decide)
    · exact ⟨VERSION :: cb :: 0x00 :: 0x01 :: octets, ph, pl, by simp, rfl⟩
  · subst hrem
    have hv3 : (VERSION :: cb :: 0x00 :: ((0x03 :: n :: name) ++ [ph, pl]))[3]? = some 0x03 := by
      simp
    have hv4 : (VERSION :: cb :: 0x00 :: ((0x03 :: n :: name) ++ [ph, pl]))[4]? = some n := by
      simp
    have hlenv : (VERSION :: cb :: 0x00 :: ((0x03 :: n :: name) ++ [ph, pl])).length
        = name.length + 7 := by
      simp
    refine ⟨by omega, Or.inr (Or.inl hv3), fun hx => ?_, fun _ => ⟨n, hv4, by omega⟩,
      fun hx => ?_, ?_⟩
    · rw [hv3] at hx; exact absurd hx (by decide)
    · rw [hv3] at hx; exact absurd hx (by decide)
    · exact ⟨VERSION :: cb :: 0x00 :: 0x03 :: n :: name, ph, pl, by simp, rfl⟩
  · subst hrem
    have hv3 : (VERSION :: cb :: 0x00 :: ((0x04 :: octets) ++ [ph, pl]))[3]? = some 0x04 := by
      simp
    have hlenv : (VERSION :: cb :: 0x00 :: ((0x04 :: octets) ++ [ph, pl])).length
        = octets.length + 6 := by
      simp
    refine ⟨by omega, Or.inr (Or.inr hv3), fun hx => ?_, fun hx => ?_, fun _ => by omega, ?_⟩
    · rw [hv3] at hx; exact absurd hx (by decide)
    · rw [hv3] at hx; exact absurd hx (by decide)
    · exact ⟨VERSION :: cb :: 0x00 :: 0x04 :: octets, ph, pl, by simp, rfl⟩

/-- Witness for C9 at a complete 10-byte IPv4 CONNECT request. -/
theorem c9_exact_message_length_witness :
    ([0x05, 0x01, 0x00, 0x01, 127, 0, 0, 1, 31, 144] : List Nat).length = 10 := by
  have h := c9_exact_message_length [0x05, 0x01, 0x00, 0x01, 127, 0, 0, 1, 31, 144]
    ⟨Command.connect, Address.ipv4 [127, 0, 0, 1], 8080⟩ (by decide)
  exact h.2.2.1 (by decide)

/-- Claim C10: the variant-to-byte conversions are partial — out-of-range
payloads of IanaAssigned, ReservedForPrivateMethods and Unassigned reach
the panic arm (modelled `none`) — and they are total on every value whose
payload lies in its documented range, as holds for every value the
byte-to-Method mapping produces. -/
theorem c10_encoders_partial_total_in_range :
    Method.toByte (Method.ianaAssigned 0x02) = none ∧
    Method.toByte (Method.ianaAssigned 0x80) = none ∧
    Method.toByte (Method.reservedForPrivateMethods 0x7f) = none ∧
    Method.toByte (Method.reservedForPrivateMethods 0xff) = none ∧
    SocksReply.toByte (SocksReply.unassigned 0x08) = none ∧
    (∀ m : Method, m.InRange → (Method.toByte m).isSome = true) ∧
    (∀ r : SocksReply, r.InRange → (SocksReply.toByte r).isSome = true) ∧
    (∀ b : Nat, b < 256 → (Method.ofByte b).InRange) := by
  refine ⟨by decide, by decide, by decide, by decide, by decide, ?_, ?_, ?_⟩
  · intro m hm
    cases m <;> simp_all [Method.InRange, Method.toByte]
  · intro r hr
    cases r <;> simp_all [SocksReply.InRange, SocksReply.toByte]
  · intro b hb
    unfold Method.ofByte
    split_ifs with h0 h1 h2 h7f hfe
    · trivial
    · trivial
    · trivial
    · exact ⟨by omega, h7f⟩
    · exact ⟨by omega, hfe⟩
    · trivial

/-- Witness for C10: an in-range IANA code and unassigned reply encode to
a byte, and byte 0x42 decodes to an in-range Method value. -/
theorem c10_encoders_witness :
    (Method.toByte (Method.ianaAssigned 0x42)).isSome = true ∧
    (SocksReply.toByte (SocksReply.unassigned 0x0a)).isSome = true ∧
    (Method.ofByte 0x42).InRange := by
  obtain ⟨-, -, -, -, -, hm, hr, hb⟩ := c10_encoders_partial_total_in_range
  exact ⟨hm (Method.ianaAssigned 0x42) ⟨by decide, by decide⟩,
         hr (SocksReply.unassigned 0x0a) ⟨by decide, by decide⟩,
         hb 0x42 (by decide)⟩

end Socks5
